import Mathlib

/-!
Verification development for the Alhuda SPARK team-registration workflow.

The embedding follows the live controller
`src/server/controllers/teamRegistrationController.js` (wired at
`route.post("/api/team-registration", upload.any(), registerTeam, ...)`):
`registerTeam`, `processPlayersDataWithCloudinary`, `cleanupCloudinaryImages`,
`getPaymentInstructions`, and the confirmation / admin notification senders.

External collaborators are modelled as explicit state:
* the Upload Store (Cloudinary) is a list of stored references plus a
  fresh-reference counter (`uploadImageToCloudinary` hands out a fresh
  reference; `deleteImageFromCloudinary` removes a reference; references are
  unique, as Cloudinary public ids are);
* the Team Repository (MongoDB) is a list of `Team` documents;
* notification dispatch only appends to an email log.

The Mongoose model `models/Team.js` (age calculator, tier fee / age-range
tables, `calculatePlayerAges`, `validatePlayerAgesForTier`, team defaults) is
not part of the sources; those pieces are modelled from the spec and are
marked as such in their doc comments.
-/

/-- Calendar date (year, month, day).  JS `Date` values reaching the age
calculator are well-formed; malformed date strings are rejected upstream. -/
structure Date where
  year : Int
  month : Nat
  day : Nat
deriving Repr, DecidableEq

/-- Modelled from the spec: the Age Calculator lives in `models/Team.js`,
which is not under src/.  Decides whether `asOf`'s month/day precedes the
birth date's month/day, i.e. whether the birthday has not yet occurred in
`asOf`'s year. -/
def monthDayBefore (asOf dob : Date) : Bool :=
  asOf.month < dob.month || (asOf.month == dob.month && asOf.day < dob.day)

/-- Modelled from the spec: the Age Calculator of `models/Team.js` (not under
src/).  Whole elapsed years between two calendar dates, decremented by one if
`asOf`'s month/day precedes `dateOfBirth`'s month/day. -/
def calculateAge (dob asOf : Date) : Int :=
  (asOf.year - dob.year) - (if monthDayBefore asOf dob then 1 else 0)

/-- One raw per-index player field group (`players[i]` in the request body).
`dateOfBirth = none` models an absent or empty date string (JS falsy check);
present dates are well-formed. -/
structure RawPlayer where
  playerName : String
  dateOfBirth : Option Date
deriving Repr, DecidableEq

/-- One uploaded multipart file: its form field name and original filename. -/
structure FileUpload where
  fieldname : String
  originalname : String
deriving Repr, DecidableEq

/-- JS `trim()` on a player name, modelled character-wise over the string's
character list (the library `String.trim` recurses on byte positions, which
the kernel cannot evaluate; on the character list the two agree). -/
def trimString (s : String) : String :=
  ⟨((s.data.dropWhile Char.isWhitespace).reverse.dropWhile Char.isWhitespace).reverse⟩

/-- The form field name carrying player `i`'s identity photo,
as matched by `file.fieldname === players[i][idPhoto]` in the controller. -/
def playerPhotoField (i : Nat) : String :=
  "players[" ++ toString i ++ "][idPhoto]"

/-- Emergency-contact triple from the request body. -/
structure EmergencyContact where
  name : String
  phone : String
  relationship : String
deriving Repr, DecidableEq

/-- The registration request body.  Empty strings model absent/falsy fields.
`players` is the ordered sequence of per-index field groups; an inner `none`
models a gap (`body.players[i]` undefined) and indices past the end of the
list are likewise absent. -/
structure RequestBody where
  teamName : String
  organization : String
  city : String
  tier : String
  gender : String
  coachName : String
  coachEmail : String
  coachPhone : String
  emergencyContact : Option EmergencyContact
  paymentMethod : String
  specialRequirements : Option String
  comments : Option String
  players : List (Option RawPlayer)
deriving Repr, DecidableEq

/-- A built player record as pushed by `processPlayersDataWithCloudinary`.
Upload references are `Nat`s (Cloudinary public ids); the secure URL is an
opaque handle derived from the public id, so it is carried as the same
reference. -/
structure PlayerRecord where
  playerName : String
  dateOfBirth : Date
  idPhotoUrl : Option Nat
  idPhotoPublicId : Option Nat
  idPhotoOriginalName : Option String
  ageAtRegistration : Int
deriving Repr, DecidableEq

/-- A persisted Team document.  `registrationStatus` defaults to "pending"
for newly created teams (modelled from the spec: the workflow only ever
creates a Team in `pending`; the Mongoose schema is not under src/). -/
structure Team where
  teamId : String
  teamName : String
  organization : String
  city : String
  tier : String
  gender : String
  coachName : String
  coachEmail : String
  coachPhone : String
  players : List PlayerRecord
  emergencyContact : EmergencyContact
  registrationFee : Nat
  paymentMethod : String
  paymentStatus : String
  registrationStatus : String
  specialRequirements : String
  comments : String
deriving Repr, DecidableEq

/-- The Upload Store (Cloudinary): the list of currently stored references
plus the fresh-reference counter.  `nextId` is the id-generation oracle; the
observable store contents are `stored`. -/
structure UploadStore where
  nextId : Nat
  stored : List Nat
deriving Repr, DecidableEq

/-- Modelled from the spec: `store(bytes, namespaceHint) -> {reference,url}`
of the Upload Store interface (the Cloudinary wrapper
`cloudinaryController.js` is not under src/).  Stores the image under a fresh
reference and returns it. -/
def uploadImageToCloudinary (s : UploadStore) : Nat × UploadStore :=
  (s.nextId, { nextId := s.nextId + 1, stored := s.nextId :: s.stored })

/-- Modelled from the spec: `delete(reference) -> void` of the Upload Store
interface; removes the reference, and its failures never propagate. -/
def deleteImageFromCloudinary (publicId : Nat) (s : UploadStore) : UploadStore :=
  { s with stored := s.stored.filter (fun x => x != publicId) }

/-- `cleanupCloudinaryImages` of the controller: deletes every tracked
reference, swallowing individual failures. -/
def cleanupCloudinaryImages (publicIds : List Nat) (s : UploadStore) : UploadStore :=
  publicIds.foldl (fun acc pid => deleteImageFromCloudinary pid acc) s

/-- Environment of one submission: the submission timestamp, the generated
team id, the upload-success oracle (indexed by the fresh reference an upload
would consume), persistence success, the tier tables of the absent
`models/Team.js` (fees and age ranges, modelled from the spec as static
configuration), and the payment-detail environment variables. -/
structure Env where
  now : Date
  freshTeamId : String
  uploadOk : Nat → Bool
  saveOk : Bool
  fees : String → Option Nat
  ageRange : String → Option (Int × Int)
  mailingAddress : Option String
  zelleEmail : Option String
  venmoUsername : Option String

/-- Error string: missing top-level required fields. -/
def errMissingFields : String := "Missing required fields"

/-- Error string: missing emergency contact. -/
def errEmergency : String := "Emergency contact information is required"

/-- Error string: player `i` (0-based) lacks name or date of birth. -/
def errPlayerMissing (i : Nat) : String :=
  "Player " ++ toString (i + 1) ++ ": Name and date of birth are required"

/-- Error string: player `i` (0-based) lacks the required ID photo. -/
def errIdRequired (i : Nat) : String :=
  "Player " ++ toString (i + 1) ++ ": ID photo is required"

/-- Error string: uploading player `i`'s ID photo failed. -/
def errUploadFailed (i : Nat) : String :=
  "Failed to upload ID photo for player " ++ toString (i + 1)

/-- Error string: fewer than 5 players. -/
def errMinPlayers : String := "Minimum 5 player required"

/-- Error string: more than 10 players. -/
def errMaxPlayers : String := "Maximum 10 players allowed"

/-- Error string: duplicate registration. -/
def errDuplicate : String := "A team with this name and coach email already exists"

/-- Error string: some player age outside the tier age range. -/
def errAgeRange (tier : String) : String :=
  "Player ages must be within the " ++ tier ++ " tier age range"

/-- Error string of the catch-all 500 handler. -/
def errServer : String := "Failed to save registration. Please try again or contact support."

/-- Success message of the controller. -/
def msgSaved : String := "Team registration saved successfully"

/-- Outcome of the player-processing while loop: either the built records
plus the references uploaded during the loop, or the first error. -/
inductive LoopResult where
  | done (players : List PlayerRecord) (uploadedImages : List Nat)
  | fail (error : String)
deriving Repr, DecidableEq

/-- The `while (body.players[playerIndex])` loop of
`processPlayersDataWithCloudinary`: walks the contiguous prefix of defined
player field groups from index `i`, validating each, locating its photo file
by field name, uploading it when present (mandatory when `requireIds`), and
cleaning up all uploads of this attempt on any failure. -/
def processLoop (env : Env) (requireIds : Bool) (files : List FileUpload) :
    List (Option RawPlayer) → Nat → List PlayerRecord → List Nat → UploadStore →
    LoopResult × UploadStore
  | [], _, acc, uploaded, s => (.done acc uploaded, s)
  | none :: _, _, acc, uploaded, s => (.done acc uploaded, s)
  | some rp :: rest, i, acc, uploaded, s =>
    if rp.playerName = "" ∨ rp.dateOfBirth = none then
      (.fail (errPlayerMissing i), cleanupCloudinaryImages uploaded s)
    else
      match files.find? (fun f => f.fieldname == playerPhotoField i) with
      | none =>
        if requireIds then
          (.fail (errIdRequired i), cleanupCloudinaryImages uploaded s)
        else
          processLoop env requireIds files rest (i + 1)
            (acc ++ [{ playerName := trimString rp.playerName,
                       dateOfBirth := rp.dateOfBirth.getD ⟨0, 0, 0⟩,
                       idPhotoUrl := none, idPhotoPublicId := none,
                       idPhotoOriginalName := none, ageAtRegistration := 0 }])
            uploaded s
      | some f =>
        if env.uploadOk s.nextId then
          let res := uploadImageToCloudinary s
          processLoop env requireIds files rest (i + 1)
            (acc ++ [{ playerName := trimString rp.playerName,
                       dateOfBirth := rp.dateOfBirth.getD ⟨0, 0, 0⟩,
                       idPhotoUrl := some res.1, idPhotoPublicId := some res.1,
                       idPhotoOriginalName := some f.originalname,
                       ageAtRegistration := 0 }])
            (uploaded ++ [res.1]) res.2
        else
          (.fail (errUploadFailed i), cleanupCloudinaryImages uploaded s)

/-- Result of `processPlayersDataWithCloudinary`: the built roster and the
upload references of this attempt, or an error (after internal cleanup). -/
inductive BuildResult where
  | ok (players : List PlayerRecord) (uploadedImages : List Nat)
  | err (error : String)
deriving Repr, DecidableEq

/-- `processPlayersDataWithCloudinary` of the controller: identity photos are
mandatory exactly when `body.tier === high_school`; after the loop the
roster size must lie in [5, 10], cleaning up this attempt's uploads on a
violation. -/
def processPlayersDataWithCloudinary (env : Env) (body : RequestBody)
    (files : List FileUpload) (s : UploadStore) : BuildResult × UploadStore :=
  let requireIds := body.tier == "high_school"
  match processLoop env requireIds files body.players 0 [] [] s with
  | (.fail e, s') => (.err e, s')
  | (.done players uploaded, s') =>
    if players.length < 5 then
      (.err errMinPlayers, cleanupCloudinaryImages uploaded s')
    else if players.length > 10 then
      (.err errMaxPlayers, cleanupCloudinaryImages uploaded s')
    else (.ok players uploaded, s')

/-- JS falsy check on the nine required top-level fields of the controller. -/
def requiredFieldsPresent (b : RequestBody) : Bool :=
  !(b.teamName == "" || b.organization == "" || b.city == "" || b.tier == "" ||
    b.gender == "" || b.coachName == "" || b.coachEmail == "" ||
    b.coachPhone == "" || b.paymentMethod == "")

/-- JS falsy check on the emergency-contact triple of the controller. -/
def emergencyContactPresent (b : RequestBody) : Bool :=
  match b.emergencyContact with
  | none => false
  | some ec => !(ec.name == "" || ec.phone == "" || ec.relationship == "")

/-- JS `toLowerCase()`, modelled character-wise over the string's character
list (the library `String.toLower` recurses on byte positions, which the
kernel cannot evaluate; on the character list the two agree). -/
def lowerString (s : String) : String := ⟨s.data.map Char.toLower⟩

/-- Whether a registration status participates in the duplicate check
(`registrationStatus: { $in: [pending, approved, waitlisted] }`). -/
def nonTerminalStatus (st : String) : Bool :=
  st == "pending" || st == "approved" || st == "waitlisted"

/-- The duplicate query `Team.findOne({coachEmail, teamName,
registrationStatus ∈ nonterminal})` with the coach email lowercased. -/
def findExistingTeam (repo : List Team) (coachEmail teamName : String) : Option Team :=
  repo.find? (fun t =>
    t.coachEmail == lowerString coachEmail && t.teamName == teamName &&
      nonTerminalStatus t.registrationStatus)

/-- The fee computation `Team.getRegistrationFees()[tier] || 350` of the
controller: an absent (or zero, JS-falsy) fee silently falls back to 350.
The fee table itself is modelled from the spec (`models/Team.js` is not
under src/); the `|| 350` fallback is from the controller source. -/
def registrationFeeFor (fees : String → Option Nat) (tier : String) : Nat :=
  match fees tier with
  | some f => if f == 0 then 350 else f
  | none => 350

/-- Modelled from the spec: `team.calculatePlayerAges()` of `models/Team.js`
(not under src/) — computes each player's `ageAtRegistration` from their
date of birth against the submission timestamp. -/
def Team.calculatePlayerAges (t : Team) (now : Date) : Team :=
  { t with players := t.players.map (fun p =>
      { p with ageAtRegistration := calculateAge p.dateOfBirth now }) }

/-- Modelled from the spec: `team.validatePlayerAgesForTier()` of
`models/Team.js` (not under src/) — checks every player's computed age
against the tier's `[minAge, maxAge]`.  The spec leaves the behavior on an
unknown tier undefined ("unknown tier identifiers must be rejected by the
caller before reaching this lookup"); an unknown tier is modelled as `none`,
i.e. a thrown error, which the controller's catch-all turns into a 500. -/
def Team.validatePlayerAgesForTier (t : Team) (ageRange : String → Option (Int × Int)) :
    Option Bool :=
  match ageRange t.tier with
  | none => none
  | some (lo, hi) =>
    some (t.players.all (fun p =>
      decide (lo ≤ p.ageAtRegistration) && decide (p.ageAtRegistration ≤ hi)))

/-- A rendered payment-instruction payload. -/
structure PaymentInstructions where
  title : String
  text : String
  details : String
deriving Repr, DecidableEq

/-- `getPaymentInstructions` of the controller: a static method-keyed table
parameterized by the team's fee, team id and team name (and the payment
environment variables with their literal defaults); an unknown method yields
no manual instructions.  `toLocaleString` of the fee is rendered as its
decimal string. -/
def getPaymentInstructions (env : Env) (team : Team) : Option PaymentInstructions :=
  if team.paymentMethod == "check" then
    some { title := "Payment by Check",
           text := "Please make your check payable to \"Alhuda SPARK\" and mail it to:",
           details := "<strong>Alhuda SPARK</strong><br>" ++
             env.mailingAddress.getD "123 Main Street<br>Indianapolis, IN 46201" ++
             "<br><br><strong>Amount:</strong> $" ++ toString team.registrationFee ++
             "<br><strong>Memo:</strong> Team Registration - " ++ team.teamName ++
             "<br><strong>Reference:</strong> " ++ team.teamId }
  else if team.paymentMethod == "zelle" then
    some { title := "Payment by Zelle",
           text := "Please send your Zelle payment using the following information:",
           details := "<strong>Recipient Email:</strong> " ++
             env.zelleEmail.getD "finance@alhudaspark.org" ++
             "<br><strong>Recipient Name:</strong> Alhuda SPARK" ++
             "<br><strong>Amount:</strong> $" ++ toString team.registrationFee ++
             "<br><strong>Memo:</strong> " ++ team.teamId }
  else if team.paymentMethod == "venmo" then
    some { title := "Payment by Venmo",
           text := "Please send your Venmo payment to:",
           details := "<strong>Venmo Username:</strong> " ++
             env.venmoUsername.getD "@AlhudaSPARK" ++
             "<br><strong>Amount:</strong> $" ++ toString team.registrationFee ++
             "<br><strong>Note:</strong> " ++ team.teamId ++ " - " ++ team.teamName }
  else none

/-- The HTTP-level outcome of a submission. -/
inductive Response where
  | failure (status : Nat) (error : String)
  | success (message : String) (teamId : String) (instructions : Option PaymentInstructions)
deriving Repr, DecidableEq

/-- Whether a response reports failure. -/
def Response.isFailure : Response → Bool
  | .failure _ _ => true
  | .success _ _ _ => false

/-- The `new Team({...})` construction of the controller: the generated id,
the body fields (coach email lowercased, optional free-text fields defaulted
to the empty string), the built roster, the computed fee, and payment status
`pending` (with the schema's default registration status `pending`). -/
def buildTeam (env : Env) (body : RequestBody) (players : List PlayerRecord) : Team :=
  { teamId := env.freshTeamId,
    teamName := body.teamName,
    organization := body.organization,
    city := body.city,
    tier := body.tier,
    gender := body.gender,
    coachName := body.coachName,
    coachEmail := lowerString body.coachEmail,
    coachPhone := body.coachPhone,
    players := players,
    emergencyContact := body.emergencyContact.getD ⟨"", "", ""⟩,
    registrationFee := registrationFeeFor env.fees body.tier,
    paymentMethod := body.paymentMethod,
    paymentStatus := "pending",
    registrationStatus := "pending",
    specialRequirements := body.specialRequirements.getD "",
    comments := body.comments.getD "" }

/-- The fully built team of a submission, ages computed against the
submission timestamp (`team.calculatePlayerAges()` before validation). -/
def builtTeam (env : Env) (body : RequestBody) (players : List PlayerRecord) : Team :=
  (buildTeam env body players).calculatePlayerAges env.now

/-- The controller's steps after a successful roster build: duplicate check,
fee computation, team construction, age calculation and validation, and
persistence, with `cleanupCloudinaryImages` on every failure path (the
unknown-tier age validation and the failing save land in the catch-all 500
handler, which also cleans up this attempt's uploads). -/
def persistStep (env : Env) (body : RequestBody) (players : List PlayerRecord)
    (uploadedImages : List Nat) (s1 : UploadStore) (repo : List Team) :
    Response × UploadStore × List Team × Option Team :=
  match findExistingTeam repo body.coachEmail body.teamName with
  | some _ =>
    (.failure 400 errDuplicate, cleanupCloudinaryImages uploadedImages s1, repo, none)
  | none =>
    match (builtTeam env body players).validatePlayerAgesForTier env.ageRange with
    | none =>
      (.failure 500 errServer, cleanupCloudinaryImages uploadedImages s1, repo, none)
    | some false =>
      (.failure 400 (errAgeRange body.tier),
       cleanupCloudinaryImages uploadedImages s1, repo, none)
    | some true =>
      if env.saveOk then
        (.success msgSaved (builtTeam env body players).teamId
           (getPaymentInstructions env (builtTeam env body players)),
         s1, repo ++ [builtTeam env body players], some (builtTeam env body players))
      else
        (.failure 500 errServer, cleanupCloudinaryImages uploadedImages s1, repo, none)

/-- The effectful part of `registerTeam` up to (and including) persistence:
returns the response, the final Upload Store, the final Team Repository, and
the persisted team (when persistence succeeded), following the controller's
order: required fields → emergency contact → roster build (with uploads) →
duplicate check → fee → team construction → age calculation/validation →
save. -/
def registerTeamCore (env : Env) (body : RequestBody) (files : List FileUpload)
    (s : UploadStore) (repo : List Team) :
    Response × UploadStore × List Team × Option Team :=
  if !requiredFieldsPresent body then
    (.failure 400 errMissingFields, s, repo, none)
  else if !emergencyContactPresent body then
    (.failure 400 errEmergency, s, repo, none)
  else
    match processPlayersDataWithCloudinary env body files s with
    | (.err e, s1) => (.failure 400 e, s1, repo, none)
    | (.ok players uploadedImages, s1) =>
      persistStep env body players uploadedImages s1 repo

/-- Success of the two fire-and-forget notification dispatches (coach
confirmation and admin alert); both senders swallow their own errors
(`catch` with a log only), so dispatch outcome is an external fact. -/
structure NotifyFlags where
  coachOk : Bool
  adminOk : Bool
deriving Repr, DecidableEq

/-- Full observable outcome of one submission. -/
structure SubmitOutcome where
  response : Response
  store : UploadStore
  repo : List Team
  emailsSent : List String
deriving Repr, DecidableEq

/-- `registerTeam` of the controller: the persistence workflow followed by
the best-effort notification dispatches (`sendTeamConfirmationEmail`,
`sendAdminNotificationEmail`), which are sent only after a successful save
and whose failures are logged and swallowed. -/
def registerTeam (env : Env) (notify : NotifyFlags) (body : RequestBody)
    (files : List FileUpload) (s : UploadStore) (repo : List Team) : SubmitOutcome :=
  match registerTeamCore env body files s repo with
  | (resp, s', r', some team) =>
    { response := resp, store := s', repo := r',
      emailsSent :=
        (if notify.coachOk then [team.coachEmail] else []) ++
        (if notify.adminOk then ["admin"] else []) }
  | (resp, s', r', none) =>
    { response := resp, store := s', repo := r', emailsSent := [] }

/-- Well-formedness of the Upload Store: every stored reference was handed
out by the fresh-reference counter. -/
def StoreWF (s : UploadStore) : Prop := ∀ r ∈ s.stored, r < s.nextId

/-- Cleanup never touches the fresh-reference counter. -/
theorem cleanup_nextId (ids : List Nat) (s : UploadStore) :
    (cleanupCloudinaryImages ids s).nextId = s.nextId := by
  induction ids generalizing s with
  | nil => rfl
  | cons a t ih =>
    simpa [cleanupCloudinaryImages, deleteImageFromCloudinary] using
      ih (deleteImageFromCloudinary a s)

/-- Cleanup removes exactly the tracked references from the store. -/
theorem cleanup_stored (ids : List Nat) (s : UploadStore) :
    (cleanupCloudinaryImages ids s).stored =
      s.stored.filter (fun x => !ids.contains x) := by
  induction ids generalizing s with
  | nil => simp [cleanupCloudinaryImages]
  | cons a t ih =>
    have h := ih (deleteImageFromCloudinary a s)
    have hstep : cleanupCloudinaryImages (a :: t) s =
        cleanupCloudinaryImages t (deleteImageFromCloudinary a s) := rfl
    rw [hstep, h]
    simp only [deleteImageFromCloudinary, List.filter_filter]
    congr 1
    funext x
    by_cases hxa : x = a
    · simp [hxa, List.contains_cons]
    · simp [List.contains_cons, bne, hxa, Ne.symm hxa]

/-- The state of a build attempt over an initial store `s0`: the uploads of
this attempt sit on top of the initial contents, and all of them are fresh
with respect to `s0`. -/
def FreshRun (s0 : UploadStore) (uploaded : List Nat) (s : UploadStore) : Prop :=
  s.stored = uploaded.reverse ++ s0.stored ∧
  (∀ a ∈ uploaded, s0.nextId ≤ a) ∧
  s0.nextId ≤ s.nextId

/-- Cleaning up a fresh run restores exactly the initial store contents. -/
theorem cleanup_restores {s0 : UploadStore} {uploaded : List Nat} {s : UploadStore}
    (hWF : StoreWF s0) (hrun : FreshRun s0 uploaded s) :
    (cleanupCloudinaryImages uploaded s).stored = s0.stored := by
  obtain ⟨hst, hfresh, _⟩ := hrun
  rw [cleanup_stored, hst, List.filter_append]
  have h1 : uploaded.reverse.filter (fun x => !uploaded.contains x) = [] := by
    apply List.filter_eq_nil_iff.mpr
    intro a ha
    rw [List.mem_reverse] at ha
    simp [List.contains, List.elem_iff, ha]
  have h2 : s0.stored.filter (fun x => !uploaded.contains x) = s0.stored := by
    apply List.filter_eq_self.mpr
    intro a ha
    have hnot : a ∉ uploaded :=
      fun hmem => absurd (hfresh a hmem) (not_le.mpr (hWF a ha))
    simp [List.contains, List.elem_iff, hnot]
  rw [h1, h2, List.nil_append]

/-- Storing one more image extends a fresh run by the consumed reference. -/
theorem FreshRun.upload {s0 : UploadStore} {uploaded : List Nat} {s : UploadStore}
    (h : FreshRun s0 uploaded s) :
    FreshRun s0 (uploaded ++ [s.nextId]) (uploadImageToCloudinary s).2 := by
  obtain ⟨hst, hfresh, hle⟩ := h
  refine ⟨?_, ?_, ?_⟩
  · simp [uploadImageToCloudinary, hst]
  · intro a ha
    rcases List.mem_append.mp ha with h1 | h1
    · exact hfresh a h1
    · simp only [List.mem_singleton] at h1
      omega
  · simp only [uploadImageToCloudinary]
    omega

/-- Main invariant of the player-processing loop: starting from a fresh run
over `s0`, a failing loop leaves exactly the initial store contents (its
internal cleanup removed every upload of this attempt), and a completed loop
is again a fresh run whose upload list extends the incoming one. -/
theorem processLoop_inv (env : Env) (rq : Bool) (files : List FileUpload)
    {s0 : UploadStore} (hWF : StoreWF s0) :
    ∀ (ps : List (Option RawPlayer)) (i : Nat) (acc : List PlayerRecord)
      (uploaded : List Nat) (s : UploadStore), FreshRun s0 uploaded s →
      (∀ e s', processLoop env rq files ps i acc uploaded s = (.fail e, s') →
        s'.stored = s0.stored) ∧
      (∀ players up' s',
        processLoop env rq files ps i acc uploaded s = (.done players up', s') →
        FreshRun s0 up' s') := by
  intro ps
  induction ps with
  | nil =>
    intro i acc uploaded s hrun
    constructor
    · intro e s' h
      simp [processLoop] at h
    · intro players up' s' h
      simp only [processLoop, Prod.mk.injEq, LoopResult.done.injEq] at h
      obtain ⟨⟨_, h2⟩, h3⟩ := h
      rw [← h2, ← h3]
      exact hrun
  | cons hd tl ih =>
    intro i acc uploaded s hrun
    cases hd with
    | none =>
      constructor
      · intro e s' h
        simp [processLoop] at h
      · intro players up' s' h
        simp only [processLoop, Prod.mk.injEq, LoopResult.done.injEq] at h
        obtain ⟨⟨_, h2⟩, h3⟩ := h
        rw [← h2, ← h3]
        exact hrun
    | some rp =>
      by_cases hmiss : rp.playerName = "" ∨ rp.dateOfBirth = none
      · constructor
        · intro e s' h
          simp only [processLoop, if_pos hmiss, Prod.mk.injEq] at h
          rw [← h.2]
          exact cleanup_restores hWF hrun
        · intro players up' s' h
          simp [processLoop, if_pos hmiss] at h
      · rcases hfind : files.find? (fun f => f.fieldname == playerPhotoField i)
          with _ | f
        · by_cases hrq : rq = true
          · constructor
            · intro e s' h
              simp only [processLoop, if_neg hmiss, hfind] at h
              rw [if_pos hrq, Prod.mk.injEq] at h
              rw [← h.2]
              exact cleanup_restores hWF hrun
            · intro players up' s' h
              simp only [processLoop, if_neg hmiss, hfind] at h
              rw [if_pos hrq] at h
              exact absurd h (by simp)
          · have hrec := ih (i + 1)
              (acc ++ [{ playerName := trimString rp.playerName,
                         dateOfBirth := rp.dateOfBirth.getD ⟨0, 0, 0⟩,
                         idPhotoUrl := none, idPhotoPublicId := none,
                         idPhotoOriginalName := none, ageAtRegistration := 0 }])
              uploaded s hrun
            constructor
            · intro e s' h
              simp only [processLoop, if_neg hmiss, hfind] at h
              rw [if_neg hrq] at h
              exact hrec.1 e s' h
            · intro players up' s' h
              simp only [processLoop, if_neg hmiss, hfind] at h
              rw [if_neg hrq] at h
              exact hrec.2 players up' s' h
        · by_cases hup : env.uploadOk s.nextId = true
          · have hrec := ih (i + 1)
              (acc ++ [{ playerName := trimString rp.playerName,
                         dateOfBirth := rp.dateOfBirth.getD ⟨0, 0, 0⟩,
                         idPhotoUrl := some (uploadImageToCloudinary s).1,
                         idPhotoPublicId := some (uploadImageToCloudinary s).1,
                         idPhotoOriginalName := some f.originalname,
                         ageAtRegistration := 0 }])
              (uploaded ++ [(uploadImageToCloudinary s).1])
              (uploadImageToCloudinary s).2 hrun.upload
            constructor
            · intro e s' h
              simp only [processLoop, if_neg hmiss, hfind, if_pos hup] at h
              exact hrec.1 e s' h
            · intro players up' s' h
              simp only [processLoop, if_neg hmiss, hfind, if_pos hup] at h
              exact hrec.2 players up' s' h
          · constructor
            · intro e s' h
              simp only [processLoop, if_neg hmiss, hfind, if_neg hup,
                Prod.mk.injEq] at h
              rw [← h.2]
              exact cleanup_restores hWF hrun
            · intro players up' s' h
              simp [processLoop, if_neg hmiss, hfind, if_neg hup] at h

/-- A build attempt starts as the trivial fresh run over the initial store. -/
theorem FreshRun.start (s : UploadStore) : FreshRun s [] s :=
  ⟨rfl, by simp, le_refl _⟩

/-- A failing roster build leaves the Upload Store contents untouched: every
upload of the attempt was cleaned up before the error was returned. -/
theorem processPlayers_err_stored {env : Env} {body : RequestBody}
    {files : List FileUpload} {s s' : UploadStore} {e : String} (hWF : StoreWF s)
    (h : processPlayersDataWithCloudinary env body files s = (.err e, s')) :
    s'.stored = s.stored := by
  have hinv := processLoop_inv env (body.tier == "high_school") files hWF
    body.players 0 [] [] s (FreshRun.start s)
  simp only [processPlayersDataWithCloudinary] at h
  rcases hl : processLoop env (body.tier == "high_school") files body.players 0 [] [] s
    with ⟨lr, s1⟩
  rw [hl] at h
  cases lr with
  | fail e0 =>
    simp only [Prod.mk.injEq, BuildResult.err.injEq] at h
    rw [← h.2]
    exact hinv.1 e0 s1 hl
  | done players uploaded =>
    have hrun := hinv.2 players uploaded s1 hl
    by_cases h5 : players.length < 5
    · simp only [if_pos h5, Prod.mk.injEq, BuildResult.err.injEq] at h
      rw [← h.2]
      exact cleanup_restores hWF hrun
    · by_cases h10 : players.length > 10
      · simp only [if_neg h5, if_pos h10, Prod.mk.injEq, BuildResult.err.injEq] at h
        rw [← h.2]
        exact cleanup_restores hWF hrun
      · simp only [if_neg h5, if_neg h10] at h
        simp at h

/-- A successful roster build is a fresh run: this attempt's uploads sit on
top of the initial store contents and are all fresh. -/
theorem processPlayers_ok_run {env : Env} {body : RequestBody}
    {files : List FileUpload} {s s' : UploadStore} {players : List PlayerRecord}
    {up : List Nat} (hWF : StoreWF s)
    (h : processPlayersDataWithCloudinary env body files s = (.ok players up, s')) :
    FreshRun s up s' := by
  have hinv := processLoop_inv env (body.tier == "high_school") files hWF
    body.players 0 [] [] s (FreshRun.start s)
  simp only [processPlayersDataWithCloudinary] at h
  rcases hl : processLoop env (body.tier == "high_school") files body.players 0 [] [] s
    with ⟨lr, s1⟩
  rw [hl] at h
  cases lr with
  | fail e0 => simp at h
  | done players0 uploaded =>
    have hrun := hinv.2 players0 uploaded s1 hl
    by_cases h5 : players0.length < 5
    · simp only [if_pos h5] at h
      simp at h
    · by_cases h10 : players0.length > 10
      · simp only [if_neg h5, if_pos h10] at h
        simp at h
      · simp only [if_neg h5, if_neg h10, Prod.mk.injEq, BuildResult.ok.injEq] at h
        obtain ⟨⟨h1, h2⟩, h3⟩ := h
        rw [← h2, ← h3]
        exact hrun

/-- A successful roster build produced between 5 and 10 players. -/
theorem processPlayers_ok_size {env : Env} {body : RequestBody}
    {files : List FileUpload} {s s' : UploadStore} {players : List PlayerRecord}
    {up : List Nat}
    (h : processPlayersDataWithCloudinary env body files s = (.ok players up, s')) :
    5 ≤ players.length ∧ players.length ≤ 10 := by
  simp only [processPlayersDataWithCloudinary] at h
  rcases hl : processLoop env (body.tier == "high_school") files body.players 0 [] [] s
    with ⟨lr, s1⟩
  rw [hl] at h
  cases lr with
  | fail e0 => simp at h
  | done players0 uploaded =>
    by_cases h5 : players0.length < 5
    · simp only [if_pos h5] at h
      simp at h
    · by_cases h10 : players0.length > 10
      · simp only [if_neg h5, if_pos h10] at h
        simp at h
      · simp only [if_neg h5, if_neg h10, Prod.mk.injEq, BuildResult.ok.injEq] at h
        obtain ⟨⟨h1, h2⟩, h3⟩ := h
        rw [← h1]
        omega

/-- Any failing run of the persistence steps after a successful roster build
restores the Upload Store contents, keeps the repository unchanged, and
persists no team. -/
theorem persistStep_failure {env : Env} {body : RequestBody}
    {players : List PlayerRecord} {uploadedImages : List Nat}
    {s s1 : UploadStore} {repo : List Team}
    {resp : Response} {s' : UploadStore} {r' : List Team} {ot : Option Team}
    (hWF : StoreWF s) (hrun : FreshRun s uploadedImages s1)
    (h : persistStep env body players uploadedImages s1 repo = (resp, s', r', ot))
    (hfail : resp.isFailure = true) :
    s'.stored = s.stored ∧ r' = repo ∧ ot = none := by
  unfold persistStep at h
  rcases hd : findExistingTeam repo body.coachEmail body.teamName with _ | t
  · rw [hd] at h
    rcases hv : (builtTeam env body players).validatePlayerAgesForTier env.ageRange
      with _ | b
    · rw [hv] at h
      simp only [Prod.mk.injEq] at h
      exact ⟨by rw [← h.2.1]; exact cleanup_restores hWF hrun,
             by rw [← h.2.2.1], by rw [← h.2.2.2]⟩
    · rw [hv] at h
      cases b with
      | false =>
        simp only [Prod.mk.injEq] at h
        exact ⟨by rw [← h.2.1]; exact cleanup_restores hWF hrun,
               by rw [← h.2.2.1], by rw [← h.2.2.2]⟩
      | true =>
        by_cases hsv : env.saveOk = true
        · simp only [if_pos hsv, Prod.mk.injEq] at h
          rw [← h.1] at hfail
          simp [Response.isFailure] at hfail
        · simp only [if_neg hsv, Prod.mk.injEq] at h
          exact ⟨by rw [← h.2.1]; exact cleanup_restores hWF hrun,
                 by rw [← h.2.2.1], by rw [← h.2.2.2]⟩
  · rw [hd] at h
    simp only [Prod.mk.injEq] at h
    exact ⟨by rw [← h.2.1]; exact cleanup_restores hWF hrun,
           by rw [← h.2.2.1], by rw [← h.2.2.2]⟩

/-- Any failing run of the persistence workflow restores the Upload Store
contents, keeps the repository unchanged, and persists no team. -/
theorem registerTeamCore_failure {env : Env} {body : RequestBody}
    {files : List FileUpload} {s : UploadStore} {repo : List Team}
    {resp : Response} {s' : UploadStore} {r' : List Team} {ot : Option Team}
    (hWF : StoreWF s)
    (h : registerTeamCore env body files s repo = (resp, s', r', ot))
    (hfail : resp.isFailure = true) :
    s'.stored = s.stored ∧ r' = repo ∧ ot = none := by
  unfold registerTeamCore at h
  by_cases h1 : (!requiredFieldsPresent body) = true
  · rw [if_pos h1] at h
    simp only [Prod.mk.injEq] at h
    exact ⟨by rw [← h.2.1], by rw [← h.2.2.1], by rw [← h.2.2.2]⟩
  · rw [if_neg h1] at h
    by_cases h2 : (!emergencyContactPresent body) = true
    · rw [if_pos h2] at h
      simp only [Prod.mk.injEq] at h
      exact ⟨by rw [← h.2.1], by rw [← h.2.2.1], by rw [← h.2.2.2]⟩
    · rw [if_neg h2] at h
      rcases hp : processPlayersDataWithCloudinary env body files s with ⟨br, s1⟩
      rw [hp] at h
      cases br with
      | err e =>
        simp only [Prod.mk.injEq] at h
        refine ⟨?_, by rw [← h.2.2.1], by rw [← h.2.2.2]⟩
        rw [← h.2.1]
        exact processPlayers_err_stored hWF hp
      | ok players uploadedImages =>
        exact persistStep_failure hWF (processPlayers_ok_run hWF hp) h hfail

/-- Sample static tier fee table, used only to instantiate theorems on
concrete inputs; the real table lives in the absent `models/Team.js`, and
the claim theorems quantify over the tables. -/
def sampleFees : String → Option Nat := fun t =>
  if t == "elementary" then some 300
  else if t == "middle" then some 350
  else if t == "high_school" then some 400
  else none

/-- Sample static tier age-range table (same caveat as `sampleFees`). -/
def sampleAgeRanges : String → Option (Int × Int) := fun t =>
  if t == "elementary" then some (5, 11)
  else if t == "middle" then some (11, 14)
  else if t == "high_school" then some (14, 18)
  else none

/-- Sample submission environment for concrete instantiation. -/
def sampleEnv : Env :=
  { now := ⟨2025, 11, 1⟩, freshTeamId := "TEAM-ABC123",
    uploadOk := fun _ => true, saveOk := true,
    fees := sampleFees, ageRange := sampleAgeRanges,
    mailingAddress := none, zelleEmail := none, venmoUsername := none }

/-- Sample emergency contact. -/
def sampleContact : EmergencyContact := ⟨"Sara Lee", "3175551234", "Parent"⟩

/-- Sample raw player born 2012-03-10 (age 13 on 2025-11-01). -/
def samplePlayer (n : String) : Option RawPlayer :=
  some ⟨n, some ⟨2012, 3, 10⟩⟩

/-- Sample well-formed middle-tier body with five players. -/
def sampleBody : RequestBody :=
  { teamName := "Falcons", organization := "Org", city := "Indy",
    tier := "middle", gender := "boys", coachName := "Coach K",
    coachEmail := "Coach@Example.com", coachPhone := "3175550000",
    emergencyContact := some sampleContact, paymentMethod := "zelle",
    specialRequirements := none, comments := none,
    players := [samplePlayer "Amir", samplePlayer "Bilal", samplePlayer "Chris",
                samplePlayer "Dawud", samplePlayer "Eli"] }

/-- Identity-photo files for the first five player indices. -/
def sampleFiles : List FileUpload :=
  [⟨playerPhotoField 0, "a.jpg"⟩, ⟨playerPhotoField 1, "b.jpg"⟩,
   ⟨playerPhotoField 2, "c.jpg"⟩, ⟨playerPhotoField 3, "d.jpg"⟩,
   ⟨playerPhotoField 4, "e.jpg"⟩]

/-- C1: every submission that fails — whatever the error kind and whichever
step raised it — deletes every identity-photo upload stored during the
attempt before the error response is returned and persists no Team document:
the Upload Store contents and the Team Repository afterwards are exactly
what they were before the call. -/
theorem claim_C1_failed_submit_rolls_back (env : Env) (notify : NotifyFlags)
    (body : RequestBody) (files : List FileUpload) (s : UploadStore)
    (repo : List Team) (hWF : StoreWF s)
    (hfail : (registerTeam env notify body files s repo).response.isFailure = true) :
    (registerTeam env notify body files s repo).store.stored = s.stored ∧
    (registerTeam env notify body files s repo).repo = repo := by
  rcases hc : registerTeamCore env body files s repo with ⟨resp, s', r', ot⟩
  cases ot with
  | some team =>
    simp only [registerTeam, hc] at hfail ⊢
    have hres := registerTeamCore_failure hWF hc hfail
    exact ⟨hres.1, hres.2.1⟩
  | none =>
    simp only [registerTeam, hc] at hfail ⊢
    have hres := registerTeamCore_failure hWF hc hfail
    exact ⟨hres.1, hres.2.1⟩

/-- Concrete instance of C1: a high-school-tier submission whose five
players are all 13 (below the tier minimum) fails the age check after all
five photos were uploaded, and the Upload Store and repository are exactly
as before the call. -/
theorem claim_C1_witness :
    StoreWF ⟨3, [0, 1, 2]⟩ ∧
    (registerTeam sampleEnv ⟨true, true⟩ { sampleBody with tier := "high_school" }
        sampleFiles ⟨3, [0, 1, 2]⟩ []).response.isFailure = true ∧
    ((registerTeam sampleEnv ⟨true, true⟩ { sampleBody with tier := "high_school" }
        sampleFiles ⟨3, [0, 1, 2]⟩ []).store.stored = [0, 1, 2] ∧
     (registerTeam sampleEnv ⟨true, true⟩ { sampleBody with tier := "high_school" }
        sampleFiles ⟨3, [0, 1, 2]⟩ []).repo = []) :=
  ⟨by unfold StoreWF; decide, by decide,
   claim_C1_failed_submit_rolls_back sampleEnv ⟨true, true⟩
     { sampleBody with tier := "high_school" } sampleFiles ⟨3, [0, 1, 2]⟩ []
     (by unfold StoreWF; decide) (by decide)⟩

/-- Whether a roster build succeeded. -/
def BuildResult.isOk : BuildResult → Bool
  | .ok _ _ => true
  | .err _ => false

/-- An already-registered pending team with the same (lowercased) coach
email and team name as `sampleBody`. -/
def sampleExistingTeam : Team :=
  { teamId := "TEAM-OLD111", teamName := "Falcons", organization := "Org",
    city := "Indy", tier := "middle", gender := "boys", coachName := "Coach K",
    coachEmail := "coach@example.com", coachPhone := "3175550000",
    players := [], emergencyContact := sampleContact, registrationFee := 350,
    paymentMethod := "zelle", paymentStatus := "pending",
    registrationStatus := "pending", specialRequirements := "", comments := "" }

/-- Counterexample to C2 as stated: on a duplicate submission carrying
identity photos, the roster build — and with it the photo uploads — runs
before the duplicate check, so at the moment the duplicate check decides the
outcome the Upload Store holds this attempt's five uploads (the store the
workflow hands to the post-build steps has `stored = [4,3,2,1,0]`, not the
initial `[]`).  The submission does fail with the duplicate error, no team
is persisted, and the uploads are deleted again before the response — but
side effects did occur before the duplicate check, contradicting the
claim's "no file is stored in the Upload Store ... before the duplicate
check decides the outcome". -/
theorem claim_C2_counterexample :
    (processPlayersDataWithCloudinary sampleEnv sampleBody sampleFiles
        ⟨0, []⟩).2.stored = [4, 3, 2, 1, 0] ∧
    (registerTeam sampleEnv ⟨true, true⟩ sampleBody sampleFiles ⟨0, []⟩
        [sampleExistingTeam]).response = .failure 400 errDuplicate ∧
    (registerTeam sampleEnv ⟨true, true⟩ sampleBody sampleFiles ⟨0, []⟩
        [sampleExistingTeam]).store.stored = [] ∧
    (registerTeam sampleEnv ⟨true, true⟩ sampleBody sampleFiles ⟨0, []⟩
        [sampleExistingTeam]).repo = [sampleExistingTeam] := by
  decide

/-- C2 amended: a submission for which a non-terminal team with the same
lowercased coach email and team name already exists fails with the
duplicate-registration error, persists no Team, and leaves the Upload Store
contents as before the call — but only after the roster build has run, so
identity-photo uploads do occur transiently and are deleted again, rather
than no side effect being performed before the duplicate check. -/
theorem claim_C2_duplicate_rejection (env : Env) (notify : NotifyFlags)
    (body : RequestBody) (files : List FileUpload) (s : UploadStore)
    (repo : List Team) (hWF : StoreWF s)
    (h1 : requiredFieldsPresent body = true)
    (h2 : emergencyContactPresent body = true)
    (hok : (processPlayersDataWithCloudinary env body files s).1.isOk = true)
    (hdup : (findExistingTeam repo body.coachEmail body.teamName).isSome = true) :
    (registerTeam env notify body files s repo).response = .failure 400 errDuplicate ∧
    (registerTeam env notify body files s repo).repo = repo ∧
    (registerTeam env notify body files s repo).store.stored = s.stored := by
  rcases hp : processPlayersDataWithCloudinary env body files s with ⟨br, s1⟩
  rw [hp] at hok
  cases br with
  | err e => simp [BuildResult.isOk] at hok
  | ok players up =>
    rcases hd : findExistingTeam repo body.coachEmail body.teamName with _ | t
    · rw [hd] at hdup
      simp at hdup
    · have hcore : registerTeamCore env body files s repo =
          (.failure 400 errDuplicate, cleanupCloudinaryImages up s1, repo, none) := by
        unfold registerTeamCore
        rw [if_neg (by simp [h1]), if_neg (by simp [h2]), hp]
        show persistStep env body players up s1 repo = _
        unfold persistStep
        rw [hd]
      simp only [registerTeam, hcore]
      exact ⟨trivial, trivial, cleanup_restores hWF (processPlayers_ok_run hWF hp)⟩

/-- Concrete instance of the amended C2: the duplicate submission of
`claim_C2_counterexample` is rejected with the duplicate error, no second
Team document is created, and the Upload Store contents end up unchanged. -/
theorem claim_C2_witness :
    ((registerTeam sampleEnv ⟨true, true⟩ sampleBody sampleFiles ⟨0, []⟩
        [sampleExistingTeam]).response = .failure 400 errDuplicate ∧
     (registerTeam sampleEnv ⟨true, true⟩ sampleBody sampleFiles ⟨0, []⟩
        [sampleExistingTeam]).repo = [sampleExistingTeam] ∧
     (registerTeam sampleEnv ⟨true, true⟩ sampleBody sampleFiles ⟨0, []⟩
        [sampleExistingTeam]).store.stored = []) :=
  claim_C2_duplicate_rejection sampleEnv ⟨true, true⟩ sampleBody sampleFiles
    ⟨0, []⟩ [sampleExistingTeam] (by unfold StoreWF; decide) (by decide)
    (by decide) (by decide) (by decide)

/-- C3 fails against the code: for a tier outside the known set the
controller computes `Team.getRegistrationFees()[tier] || 350`, silently
assigning the fallback fee 350, and no code path produces an invalid-tier
rejection — the submission only dies later in the catch-all 500 handler
(here via the spec-modelled unknown-tier age validation), not with an
`InvalidTier` error.  This theorem evaluates the code at the failing input:
the unknown tier "college" gets the default fee 350 even though the fee
table has no entry for it, and the response is the generic 500 failure. -/
theorem claim_C3_unknown_tier_defaults_fee :
    sampleFees "college" = none ∧
    registrationFeeFor sampleFees "college" = 350 ∧
    (buildTeam sampleEnv { sampleBody with tier := "college" } []).registrationFee = 350 ∧
    (registerTeam sampleEnv ⟨true, true⟩ { sampleBody with tier := "college" }
        [] ⟨0, []⟩ []).response = .failure 500 errServer ∧
    (registerTeam sampleEnv ⟨true, true⟩ { sampleBody with tier := "college" }
        [] ⟨0, []⟩ []).repo = [] := by
  decide

/-- C7: the spec-modelled age calculator returns the year difference minus
one exactly when the reference date's month/day precedes the birth date's
month/day, returns exactly the year difference on the birthday itself, and
meets the spec's boundary examples (born 2012-11-01, asOf 2025-11-01 → 13;
born 2012-11-02, asOf 2025-11-01 → 12). -/
theorem claim_C7_age_boundary :
    (∀ dob asOf : Date, calculateAge dob asOf = asOf.year - dob.year - 1 ↔
        monthDayBefore asOf dob = true) ∧
    (∀ dob asOf : Date, asOf.month = dob.month → asOf.day = dob.day →
        calculateAge dob asOf = asOf.year - dob.year) ∧
    calculateAge ⟨2012, 11, 1⟩ ⟨2025, 11, 1⟩ = 13 ∧
    calculateAge ⟨2012, 11, 2⟩ ⟨2025, 11, 1⟩ = 12 := by
  refine ⟨?_, ?_, by decide, by decide⟩
  · intro dob asOf
    unfold calculateAge
    by_cases h : monthDayBefore asOf dob = true
    · simp [h]
    · simp only [h, if_false, Bool.false_eq_true]
      constructor
      · intro heq
        omega
      · intro heq
        exact heq.elim
  · intro dob asOf hm hd
    unfold calculateAge monthDayBefore
    simp [hm, hd]

/-- Concrete instance of C7: a player born 13 years minus one day after the
2012-11-02 birth date boundary has age 12 on 2025-11-01, via the
decremented-year direction of the equivalence. -/
theorem claim_C7_witness :
    monthDayBefore ⟨2025, 11, 1⟩ ⟨2012, 11, 2⟩ = true ∧
    calculateAge ⟨2012, 11, 2⟩ ⟨2025, 11, 1⟩ = 2025 - 2012 - 1 :=
  ⟨by decide, (claim_C7_age_boundary.1 ⟨2012, 11, 2⟩ ⟨2025, 11, 1⟩).mpr (by decide)⟩

/-- C8: a failure of the coach-confirmation dispatch or the admin
notification dispatch never changes the submission outcome: the response,
the repository (the persisted team is not reverted), and the Upload Store
are identical for every combination of notification successes. -/
theorem claim_C8_notification_failures_harmless (env : Env) (n1 n2 : NotifyFlags)
    (body : RequestBody) (files : List FileUpload) (s : UploadStore)
    (repo : List Team) :
    (registerTeam env n1 body files s repo).response =
        (registerTeam env n2 body files s repo).response ∧
    (registerTeam env n1 body files s repo).repo =
        (registerTeam env n2 body files s repo).repo ∧
    (registerTeam env n1 body files s repo).store =
        (registerTeam env n2 body files s repo).store := by
  rcases hc : registerTeamCore env body files s repo with ⟨resp, s', r', ot⟩
  cases ot <;> simp [registerTeam, hc]

/-- C9: the payment-instruction resolver is a pure function of the payment
method, the fee, the reference id (team id) and the team name under a fixed
environment configuration: any two teams agreeing on those four fields
receive identical structured payloads, whatever their other fields — there
is no hidden state. -/
theorem claim_C9_payment_instructions_deterministic (env : Env) (t1 t2 : Team)
    (hm : t1.paymentMethod = t2.paymentMethod)
    (hf : t1.registrationFee = t2.registrationFee)
    (hi : t1.teamId = t2.teamId)
    (hn : t1.teamName = t2.teamName) :
    getPaymentInstructions env t1 = getPaymentInstructions env t2 := by
  unfold getPaymentInstructions
  rw [hm, hf, hi, hn]

/-- Concrete instance of C9: two zelle teams with fee 350 and the same team
id and name but different coach, city and organization get the same
payment-instruction payload. -/
theorem claim_C9_witness :
    getPaymentInstructions sampleEnv sampleExistingTeam =
      getPaymentInstructions sampleEnv
        { sampleExistingTeam with coachName := "Other Coach", organization := "Other Org" } :=
  claim_C9_payment_instructions_deterministic sampleEnv _ _ rfl rfl rfl rfl

/-- Computing player ages preserves the roster length, so the built team has
exactly as many players as the built roster. -/
theorem builtTeam_players_length (env : Env) (body : RequestBody)
    (players : List PlayerRecord) :
    (builtTeam env body players).players.length = players.length := by
  simp [builtTeam, buildTeam, Team.calculatePlayerAges]

/-- The repository after the persistence workflow is either unchanged or
extended by exactly the built team of a successful roster build. -/
theorem registerTeamCore_repo {env : Env} {body : RequestBody}
    {files : List FileUpload} {s : UploadStore} {repo : List Team}
    {resp : Response} {s' : UploadStore} {r' : List Team} {ot : Option Team}
    (h : registerTeamCore env body files s repo = (resp, s', r', ot)) :
    r' = repo ∨ ∃ players uploadedImages s1,
      processPlayersDataWithCloudinary env body files s =
        (.ok players uploadedImages, s1) ∧
      r' = repo ++ [builtTeam env body players] := by
  unfold registerTeamCore at h
  by_cases h1 : (!requiredFieldsPresent body) = true
  · rw [if_pos h1] at h
    simp only [Prod.mk.injEq] at h
    exact Or.inl h.2.2.1.symm
  · rw [if_neg h1] at h
    by_cases h2 : (!emergencyContactPresent body) = true
    · rw [if_pos h2] at h
      simp only [Prod.mk.injEq] at h
      exact Or.inl h.2.2.1.symm
    · rw [if_neg h2] at h
      rcases hp : processPlayersDataWithCloudinary env body files s with ⟨br, s1⟩
      rw [hp] at h
      cases br with
      | err e =>
        simp only [Prod.mk.injEq] at h
        exact Or.inl h.2.2.1.symm
      | ok players uploadedImages =>
        have h' : persistStep env body players uploadedImages s1 repo =
            (resp, s', r', ot) := h
        unfold persistStep at h'
        rcases hd : findExistingTeam repo body.coachEmail body.teamName with _ | t
        · rw [hd] at h'
          rcases hv : (builtTeam env body players).validatePlayerAgesForTier
              env.ageRange with _ | b
          · rw [hv] at h'
            simp only [Prod.mk.injEq] at h'
            exact Or.inl h'.2.2.1.symm
          · rw [hv] at h'
            cases b with
            | false =>
              simp only [Prod.mk.injEq] at h'
              exact Or.inl h'.2.2.1.symm
            | true =>
              by_cases hsv : env.saveOk = true
              · simp only [if_pos hsv, Prod.mk.injEq] at h'
                exact Or.inr ⟨players, uploadedImages, s1, rfl, h'.2.2.1.symm⟩
              · simp only [if_neg hsv, Prod.mk.injEq] at h'
                exact Or.inl h'.2.2.1.symm
        · rw [hd] at h'
          simp only [Prod.mk.injEq] at h'
          exact Or.inl h'.2.2.1.symm

/-- C5: a built roster with fewer than 5 or more than 10 players makes the
build fail with the corresponding roster-size error (so the submission
fails), a successful build always has between 5 and 10 players, and every
team the workflow adds to the repository has between 5 and 10 players. -/
theorem claim_C5_roster_size_bounds :
    (∀ (env : Env) (body : RequestBody) (files : List FileUpload)
        (s s1 : UploadStore) (players : List PlayerRecord) (up : List Nat),
        processLoop env (body.tier == "high_school") files body.players 0 [] [] s =
          (.done players up, s1) →
        (players.length < 5 →
          (processPlayersDataWithCloudinary env body files s).1 = .err errMinPlayers) ∧
        (players.length > 10 →
          (processPlayersDataWithCloudinary env body files s).1 = .err errMaxPlayers)) ∧
    (∀ (env : Env) (body : RequestBody) (files : List FileUpload)
        (s s' : UploadStore) (players : List PlayerRecord) (up : List Nat),
        processPlayersDataWithCloudinary env body files s = (.ok players up, s') →
        5 ≤ players.length ∧ players.length ≤ 10) ∧
    (∀ (env : Env) (notify : NotifyFlags) (body : RequestBody)
        (files : List FileUpload) (s : UploadStore) (repo : List Team)
        (t : Team), t ∈ (registerTeam env notify body files s repo).repo →
        t ∈ repo ∨ (5 ≤ t.players.length ∧ t.players.length ≤ 10)) := by
  refine ⟨?_, ?_, ?_⟩
  · intro env body files s s1 players up hl
    constructor
    · intro h5
      simp [processPlayersDataWithCloudinary, hl, if_pos h5]
    · intro h10
      have h5 : ¬players.length < 5 := by omega
      simp [processPlayersDataWithCloudinary, hl, if_neg h5, if_pos h10]
  · intro env body files s s' players up hp
    exact processPlayers_ok_size hp
  · intro env notify body files s repo t ht
    rcases hc : registerTeamCore env body files s repo with ⟨resp, s', r', ot⟩
    have hrepo : (registerTeam env notify body files s repo).repo = r' := by
      cases ot <;> simp [registerTeam, hc]
    rw [hrepo] at ht
    rcases registerTeamCore_repo hc with h | ⟨players, up, s1, hp, hr⟩
    · exact Or.inl (h ▸ ht)
    · rw [hr] at ht
      rcases List.mem_append.mp ht with h | h
      · exact Or.inl h
      · simp only [List.mem_singleton] at h
        refine Or.inr ?_
        rw [h, builtTeam_players_length]
        exact processPlayers_ok_size hp

/-- Concrete instance of C5: a four-player submission is rejected with the
minimum-roster error, and a successful five-player build is within the
bounds. -/
theorem claim_C5_witness :
    (processPlayersDataWithCloudinary sampleEnv
        { sampleBody with players := [samplePlayer "A", samplePlayer "B",
          samplePlayer "C", samplePlayer "D"] } [] ⟨0, []⟩).1 = .err errMinPlayers :=
  (claim_C5_roster_size_bounds.1 sampleEnv
      { sampleBody with players := [samplePlayer "A", samplePlayer "B",
        samplePlayer "C", samplePlayer "D"] } [] ⟨0, []⟩ ⟨0, []⟩
      [⟨"A", ⟨2012, 3, 10⟩, none, none, none, 0⟩,
       ⟨"B", ⟨2012, 3, 10⟩, none, none, none, 0⟩,
       ⟨"C", ⟨2012, 3, 10⟩, none, none, none, 0⟩,
       ⟨"D", ⟨2012, 3, 10⟩, none, none, none, 0⟩] []
      (by decide)).1 (by decide)

/-- The roster a submission's build step produced (empty on a failed
build). -/
def builtRoster (env : Env) (body : RequestBody) (files : List FileUpload)
    (s : UploadStore) : List PlayerRecord :=
  match (processPlayersDataWithCloudinary env body files s).1 with
  | .ok players _ => players
  | .err _ => []

/-- If some built player's computed age falls outside the tier's range, the
spec-modelled age validation of the built team returns `false`. -/
theorem builtTeam_validate_false {env : Env} {body : RequestBody}
    {players : List PlayerRecord} {lo hi : Int}
    (hrange : env.ageRange body.tier = some (lo, hi))
    (hviol : ∃ p ∈ players,
      ¬(lo ≤ calculateAge p.dateOfBirth env.now ∧
        calculateAge p.dateOfBirth env.now ≤ hi)) :
    (builtTeam env body players).validatePlayerAgesForTier env.ageRange =
      some false := by
  unfold Team.validatePlayerAgesForTier
  rw [show (builtTeam env body players).tier = body.tier from rfl, hrange]
  simp only [Option.some.injEq]
  obtain ⟨p, hmem, hout⟩ := hviol
  apply List.all_eq_false.mpr
  refine ⟨{ p with ageAtRegistration := calculateAge p.dateOfBirth env.now }, ?_, ?_⟩
  · simp only [builtTeam, buildTeam, Team.calculatePlayerAges, List.mem_map]
    exact ⟨p, hmem, rfl⟩
  · by_cases hlo : lo ≤ calculateAge p.dateOfBirth env.now
    · have hhi : ¬calculateAge p.dateOfBirth env.now ≤ hi :=
        fun hh => hout ⟨hlo, hh⟩
      simp [hhi]
    · simp [hlo]

/-- C6: a submission that reaches the age check (fields present, roster
built, no duplicate) with a known tier and at least one built player whose
age — computed from the date of birth against the submission timestamp —
lies outside the tier's range fails with the age-eligibility error, no Team
is persisted, and the Upload Store contents are restored (every upload of
the attempt deleted). -/
theorem claim_C6_age_violation (env : Env) (notify : NotifyFlags)
    (body : RequestBody) (files : List FileUpload) (s : UploadStore)
    (repo : List Team) (lo hi : Int) (hWF : StoreWF s)
    (h1 : requiredFieldsPresent body = true)
    (h2 : emergencyContactPresent body = true)
    (hok : (processPlayersDataWithCloudinary env body files s).1.isOk = true)
    (hnodup : findExistingTeam repo body.coachEmail body.teamName = none)
    (hrange : env.ageRange body.tier = some (lo, hi))
    (hviol : ∃ p ∈ builtRoster env body files s,
      ¬(lo ≤ calculateAge p.dateOfBirth env.now ∧
        calculateAge p.dateOfBirth env.now ≤ hi)) :
    (registerTeam env notify body files s repo).response =
      .failure 400 (errAgeRange body.tier) ∧
    (registerTeam env notify body files s repo).repo = repo ∧
    (registerTeam env notify body files s repo).store.stored = s.stored := by
  rcases hp : processPlayersDataWithCloudinary env body files s with ⟨br, s1⟩
  rw [hp] at hok
  unfold builtRoster at hviol
  rw [hp] at hviol
  cases br with
  | err e => simp [BuildResult.isOk] at hok
  | ok players up =>
    have hval := builtTeam_validate_false hrange hviol
    have hcore : registerTeamCore env body files s repo =
        (.failure 400 (errAgeRange body.tier),
         cleanupCloudinaryImages up s1, repo, none) := by
      unfold registerTeamCore
      rw [if_neg (by simp [h1]), if_neg (by simp [h2]), hp]
      show persistStep env body players up s1 repo = _
      unfold persistStep
      rw [hnodup, hval]
    simp only [registerTeam, hcore]
    exact ⟨trivial, trivial, cleanup_restores hWF (processPlayers_ok_run hWF hp)⟩

/-- Concrete instance of C6: a high-school-tier submission whose players are
all 13 (below the tier minimum 14) fails with the age error after its five
uploads, which are all deleted again. -/
theorem claim_C6_witness :
    (registerTeam sampleEnv ⟨true, true⟩ { sampleBody with tier := "high_school" }
        sampleFiles ⟨0, []⟩ []).response =
      .failure 400 (errAgeRange "high_school") ∧
    (registerTeam sampleEnv ⟨true, true⟩ { sampleBody with tier := "high_school" }
        sampleFiles ⟨0, []⟩ []).repo = [] ∧
    (registerTeam sampleEnv ⟨true, true⟩ { sampleBody with tier := "high_school" }
        sampleFiles ⟨0, []⟩ []).store.stored = [] :=
  claim_C6_age_violation sampleEnv ⟨true, true⟩
    { sampleBody with tier := "high_school" } sampleFiles ⟨0, []⟩ [] 14 18
    (by unfold StoreWF; decide) (by decide) (by decide) (by decide) (by decide)
    (by decide)
    ⟨⟨"Amir", ⟨2012, 3, 10⟩, some 0, some 0, some "a.jpg", 0⟩, by decide, by decide⟩

/-- The processing loop never looks past the first absent field group: the
entries after a gap are irrelevant to its entire result (records built,
uploads performed, errors raised, and final store state). -/
theorem processLoop_stops_at_gap (env : Env) (rq : Bool) (files : List FileUpload) :
    ∀ (pre : List RawPlayer) (rest : List (Option RawPlayer)) (i : Nat)
      (acc : List PlayerRecord) (up : List Nat) (s : UploadStore),
      processLoop env rq files (pre.map some ++ none :: rest) i acc up s =
        processLoop env rq files (pre.map some) i acc up s := by
  intro pre
  induction pre with
  | nil => intro rest i acc up s; rfl
  | cons q t ih =>
    intro rest i acc up s
    simp only [List.map_cons, List.cons_append, processLoop]
    by_cases hmiss : q.playerName = "" ∨ q.dateOfBirth = none
    · simp only [if_pos hmiss]
    · simp only [if_neg hmiss]
      rcases hfind : files.find? (fun f => f.fieldname == playerPhotoField i) with _ | f
      · by_cases hrq : rq = true
        · simp only [hfind, if_pos hrq]
        · simp only [hfind, if_neg hrq]
          exact ih rest (i + 1) _ up s
      · by_cases hup : env.uploadOk s.nextId = true
        · simp only [hfind, if_pos hup]
          exact ih rest (i + 1) _ _ _
        · simp only [hfind, if_neg hup]

/-- C10: the roster builder walks exactly the contiguous prefix of player
indices starting at 0 and stops at the first index with no field group;
whatever player entries sit after the gap, the build's result — records,
validation errors, uploads, and final Upload Store — is identical to the
build of the prefix alone, so post-gap entries are silently ignored (never
validated, never uploaded, never counted toward the roster-size bounds)
rather than rejected. -/
theorem claim_C10_gap_ignores_rest (env : Env) (body : RequestBody)
    (files : List FileUpload) (s : UploadStore) (pre : List RawPlayer)
    (rest : List (Option RawPlayer))
    (hplayers : body.players = pre.map some ++ none :: rest) :
    processPlayersDataWithCloudinary env body files s =
      processPlayersDataWithCloudinary env { body with players := pre.map some }
        files s := by
  simp only [processPlayersDataWithCloudinary, hplayers]
  rw [processLoop_stops_at_gap]

/-- Concrete instance of C10: a submission with one valid player, a gap,
and a malformed entry after the gap builds exactly as the one-player prefix
(the malformed entry is never validated) and is rejected only for roster
size — one player instead of a missing-field error for the post-gap
entry. -/
theorem claim_C10_witness :
    processPlayersDataWithCloudinary sampleEnv
        { sampleBody with players := [samplePlayer "Amir", none, some ⟨"", none⟩] }
        [] ⟨0, []⟩ =
      processPlayersDataWithCloudinary sampleEnv
        { sampleBody with players := [⟨"Amir", some ⟨2012, 3, 10⟩⟩].map some }
        [] ⟨0, []⟩ ∧
    (processPlayersDataWithCloudinary sampleEnv
        { sampleBody with players := [samplePlayer "Amir", none, some ⟨"", none⟩] }
        [] ⟨0, []⟩).1 = .err errMinPlayers :=
  ⟨claim_C10_gap_ignores_rest sampleEnv
      { sampleBody with players := [samplePlayer "Amir", none, some ⟨"", none⟩] }
      [] ⟨0, []⟩ [⟨"Amir", some ⟨2012, 3, 10⟩⟩] [some ⟨"", none⟩] (by decide),
   by decide⟩

/-- A successful build comes from a completed loop with the same roster,
upload list and final store. -/
theorem processPlayers_ok_loop {env : Env} {body : RequestBody}
    {files : List FileUpload} {s s' : UploadStore} {players : List PlayerRecord}
    {up : List Nat}
    (h : processPlayersDataWithCloudinary env body files s = (.ok players up, s')) :
    processLoop env (body.tier == "high_school") files body.players 0 [] [] s =
      (.done players up, s') := by
  simp only [processPlayersDataWithCloudinary] at h
  rcases hl : processLoop env (body.tier == "high_school") files body.players 0 [] [] s
    with ⟨lr, s1⟩
  rw [hl] at h
  cases lr with
  | fail e => simp at h
  | done players0 uploaded =>
    by_cases h5 : players0.length < 5
    · simp only [if_pos h5] at h
      simp at h
    · by_cases h10 : players0.length > 10
      · simp only [if_neg h5, if_pos h10] at h
        simp at h
      · simp only [if_neg h5, if_neg h10, Prod.mk.injEq, BuildResult.ok.injEq] at h
        obtain ⟨⟨ha, hb⟩, hc⟩ := h
        rw [ha, hb, hc]

/-- Shape of the records a completed loop appended from index `i` on: a
record's photo reference is present exactly when a file for its index was
submitted, and under a photo-requiring tier a file was present for every
processed index. -/
def PhotoShape (rq : Bool) (files : List FileUpload) : Nat → List PlayerRecord → Prop
  | _, [] => True
  | i, p :: rest =>
    p.idPhotoPublicId.isSome =
        (files.find? (fun f => f.fieldname == playerPhotoField i)).isSome ∧
    (rq = true →
      (files.find? (fun f => f.fieldname == playerPhotoField i)).isSome = true) ∧
    PhotoShape rq files (i + 1) rest

/-- Every completed loop's appended records satisfy `PhotoShape`. -/
theorem processLoop_photoShape (env : Env) (rq : Bool) (files : List FileUpload) :
    ∀ (ps : List (Option RawPlayer)) (i : Nat) (acc : List PlayerRecord)
      (up : List Nat) (s : UploadStore) (players : List PlayerRecord)
      (up' : List Nat) (s' : UploadStore),
      processLoop env rq files ps i acc up s = (.done players up', s') →
      ∃ rest, players = acc ++ rest ∧ PhotoShape rq files i rest := by
  intro ps
  induction ps with
  | nil =>
    intro i acc up s players up' s' h
    simp only [processLoop, Prod.mk.injEq, LoopResult.done.injEq] at h
    exact ⟨[], by rw [← h.1.1, List.append_nil], trivial⟩
  | cons hd tl ih =>
    intro i acc up s players up' s' h
    cases hd with
    | none =>
      simp only [processLoop, Prod.mk.injEq, LoopResult.done.injEq] at h
      exact ⟨[], by rw [← h.1.1, List.append_nil], trivial⟩
    | some rp =>
      by_cases hmiss : rp.playerName = "" ∨ rp.dateOfBirth = none
      · simp [processLoop, if_pos hmiss] at h
      · rcases hfind : files.find? (fun f => f.fieldname == playerPhotoField i)
          with _ | f
        · by_cases hrq : rq = true
          · simp only [processLoop, if_neg hmiss, hfind] at h
            rw [if_pos hrq] at h
            exact absurd h (by simp)
          · simp only [processLoop, if_neg hmiss, hfind] at h
            rw [if_neg hrq] at h
            obtain ⟨rest, hps, hshape⟩ := ih (i + 1) _ up s players up' s' h
            refine ⟨{ playerName := trimString rp.playerName,
                      dateOfBirth := rp.dateOfBirth.getD ⟨0, 0, 0⟩,
                      idPhotoUrl := none, idPhotoPublicId := none,
                      idPhotoOriginalName := none, ageAtRegistration := 0 } :: rest,
                    ?_, ?_, ?_, hshape⟩
            · rw [hps]
              simp
            · simp [hfind]
            · intro h'
              exact absurd h' hrq
        · by_cases hup : env.uploadOk s.nextId = true
          · simp only [processLoop, if_neg hmiss, hfind, if_pos hup] at h
            obtain ⟨rest, hps, hshape⟩ := ih (i + 1) _ _ _ players up' s' h
            refine ⟨{ playerName := trimString rp.playerName,
                      dateOfBirth := rp.dateOfBirth.getD ⟨0, 0, 0⟩,
                      idPhotoUrl := some (uploadImageToCloudinary s).1,
                      idPhotoPublicId := some (uploadImageToCloudinary s).1,
                      idPhotoOriginalName := some f.originalname,
                      ageAtRegistration := 0 } :: rest,
                    ?_, ?_, ?_, hshape⟩
            · rw [hps]
              simp
            · simp [hfind]
            · intro h'
              simp [hfind]
          · simp only [processLoop, if_neg hmiss, hfind, if_neg hup] at h
            exact absurd h (by simp)

/-- Under a photo-requiring tier every record of a `PhotoShape` block holds
a photo reference. -/
theorem photoShape_required {files : List FileUpload} :
    ∀ (rest : List PlayerRecord) (i : Nat), PhotoShape true files i rest →
      ∀ p ∈ rest, p.idPhotoPublicId.isSome = true := by
  intro rest
  induction rest with
  | nil =>
    intro i h p hp
    cases hp
  | cons q t ih =>
    intro i h p hp
    rcases List.mem_cons.mp hp with rfl | hp'
    · rw [h.1]
      exact h.2.1 rfl
    · exact ih (i + 1) h.2.2 p hp'

/-- Positionally, a `PhotoShape` record at offset `j` holds a photo
reference exactly when a file for index `i + j` was submitted. -/
theorem photoShape_get {rq : Bool} {files : List FileUpload} :
    ∀ (rest : List PlayerRecord) (i j : Nat) (h : PhotoShape rq files i rest)
      (hj : j < rest.length),
      (rest.get ⟨j, hj⟩).idPhotoPublicId.isSome =
        (files.find? (fun f => f.fieldname == playerPhotoField (i + j))).isSome := by
  intro rest
  induction rest with
  | nil =>
    intro i j h hj
    simp at hj
  | cons q t ih =>
    intro i j h hj
    cases j with
    | zero =>
      simpa using h.1
    | succ k =>
      have hrec := ih (i + 1) k h.2.2 (by simpa using hj)
      have hidx : i + 1 + k = i + (k + 1) := by omega
      rw [hidx] at hrec
      simpa using hrec

/-- A raw entry that passes all checks of a photo-requiring loop step:
present, named, dated, and with a photo file for its index. -/
def ValidWithFile (files : List FileUpload) (i : Nat) : Option RawPlayer → Prop
  | none => False
  | some rp =>
    rp.playerName ≠ "" ∧ rp.dateOfBirth.isSome = true ∧
      (files.find? (fun f => f.fieldname == playerPhotoField i)).isSome = true

/-- Under a photo-requiring tier, a loop whose first defect is a missing
photo file at the index right after a fully valid prefix fails with exactly
the missing-ID-photo error for that index. -/
theorem processLoop_missing_photo (env : Env) (files : List FileUpload)
    (hupload : ∀ n, env.uploadOk n = true) :
    ∀ (pre : List (Option RawPlayer)) (i : Nat) (acc : List PlayerRecord)
      (up : List Nat) (s : UploadStore) (rp : RawPlayer)
      (rest : List (Option RawPlayer)),
      (∀ k (hk : k < pre.length), ValidWithFile files (i + k) (pre.get ⟨k, hk⟩)) →
      rp.playerName ≠ "" → rp.dateOfBirth.isSome = true →
      files.find? (fun f => f.fieldname == playerPhotoField (i + pre.length)) = none →
      (processLoop env true files (pre ++ some rp :: rest) i acc up s).1 =
        .fail (errIdRequired (i + pre.length)) := by
  intro pre
  induction pre with
  | nil =>
    intro i acc up s rp rest hvalid hname hdob hnone
    have hmiss : ¬(rp.playerName = "" ∨ rp.dateOfBirth = none) := by
      rintro (hx | hx)
      · exact hname hx
      · rw [hx] at hdob
        simp at hdob
    simp only [List.length_nil, Nat.add_zero] at hnone ⊢
    simp [processLoop, if_neg hmiss, hnone]
  | cons q tq ih =>
    intro i acc up s rp rest hvalid hname hdob hnone
    cases q with
    | none => exact (hvalid 0 (by simp)).elim
    | some rq' =>
      have h0 := hvalid 0 (by simp)
      rw [show i + 0 = i from rfl] at h0
      obtain ⟨hname', hdob', hfile⟩ := h0
      have hmiss : ¬(rq'.playerName = "" ∨ rq'.dateOfBirth = none) := by
        rintro (hx | hx)
        · exact hname' hx
        · rw [hx] at hdob'
          simp at hdob'
      rcases hf : files.find? (fun f => f.fieldname == playerPhotoField i) with _ | f
      · rw [hf] at hfile
        simp at hfile
      · have hvalid' : ∀ k (hk : k < tq.length),
            ValidWithFile files (i + 1 + k) (tq.get ⟨k, hk⟩) := by
          intro k hk
          have h' := hvalid (k + 1) (by simp; omega)
          rw [show i + (k + 1) = i + 1 + k from by omega] at h'
          exact h'
        have hnone' : files.find?
            (fun f => f.fieldname == playerPhotoField (i + 1 + tq.length)) = none := by
          have heq : i + 1 + tq.length = i + (some rq' :: tq).length := by
            simp only [List.length_cons]
            omega
          rw [heq]
          exact hnone
        have hrec := ih (i + 1)
          (acc ++ [{ playerName := trimString rq'.playerName,
                     dateOfBirth := rq'.dateOfBirth.getD ⟨0, 0, 0⟩,
                     idPhotoUrl := some (uploadImageToCloudinary s).1,
                     idPhotoPublicId := some (uploadImageToCloudinary s).1,
                     idPhotoOriginalName := some f.originalname,
                     ageAtRegistration := 0 }])
          (up ++ [(uploadImageToCloudinary s).1]) (uploadImageToCloudinary s).2
          rp rest hvalid' hname hdob hnone'
        simp only [List.cons_append, processLoop, if_neg hmiss, hf,
          if_pos (hupload s.nextId)]
        have heq2 : i + (some rq' :: tq).length = i + 1 + tq.length := by
          simp only [List.length_cons]
          omega
        rw [heq2]
        exact hrec

/-- A loop failure surfaces verbatim as the build's error. -/
theorem processPlayers_fst_of_loop_fail {env : Env} {body : RequestBody}
    {files : List FileUpload} {s : UploadStore} {e : String}
    (h : (processLoop env (body.tier == "high_school") files body.players 0 [] [] s).1 =
      .fail e) :
    (processPlayersDataWithCloudinary env body files s).1 = .err e := by
  simp only [processPlayersDataWithCloudinary]
  rcases hl : processLoop env (body.tier == "high_school") files body.players 0 [] [] s
    with ⟨lr, s1⟩
  rw [hl] at h
  cases lr with
  | fail e0 =>
    simp only [LoopResult.fail.injEq] at h
    rw [← h]
  | done players uploaded =>
    simp at h

/-- C4: an identity-photo upload is mandatory exactly for the
photo-requiring tier (`high_school`).  First, every roster a high-school
submission successfully builds has a photo reference on every player.
Second (any tier), a built player's photo reference is present if and only
if a file for their index was submitted — in particular, under a
non-requiring tier a player without a file is accepted with a null
reference.  Third, under the high-school tier a player whose index has no
matching file — after a prefix of fully valid players — makes the build
(and hence the submission) fail with exactly the missing-ID-photo error for
that player's index. -/
theorem claim_C4_photo_requirement :
    (∀ (env : Env) (body : RequestBody) (files : List FileUpload)
        (s s' : UploadStore) (players : List PlayerRecord) (up : List Nat),
        body.tier = "high_school" →
        processPlayersDataWithCloudinary env body files s = (.ok players up, s') →
        ∀ p ∈ players, p.idPhotoPublicId.isSome = true) ∧
    (∀ (env : Env) (body : RequestBody) (files : List FileUpload)
        (s s' : UploadStore) (players : List PlayerRecord) (up : List Nat),
        processPlayersDataWithCloudinary env body files s = (.ok players up, s') →
        ∀ (j : Nat) (hj : j < players.length),
          (players.get ⟨j, hj⟩).idPhotoPublicId.isSome =
            (files.find? (fun f => f.fieldname == playerPhotoField j)).isSome) ∧
    (∀ (env : Env) (body : RequestBody) (files : List FileUpload) (s : UploadStore)
        (pre : List (Option RawPlayer)) (rp : RawPlayer)
        (rest : List (Option RawPlayer)),
        body.tier = "high_school" →
        (∀ n, env.uploadOk n = true) →
        body.players = pre ++ some rp :: rest →
        (∀ k (hk : k < pre.length), ValidWithFile files k (pre.get ⟨k, hk⟩)) →
        rp.playerName ≠ "" → rp.dateOfBirth.isSome = true →
        files.find? (fun f => f.fieldname == playerPhotoField pre.length) = none →
        (processPlayersDataWithCloudinary env body files s).1 =
          .err (errIdRequired pre.length)) := by
  refine ⟨?_, ?_, ?_⟩
  · intro env body files s s' players up htier hp p hmem
    have hloop := processPlayers_ok_loop hp
    have hrq : (body.tier == "high_school") = true := by
      rw [htier]
      decide
    rw [hrq] at hloop
    obtain ⟨rest, hps, hshape⟩ :=
      processLoop_photoShape env true files body.players 0 [] [] s players up s' hloop
    rw [hps] at hmem
    exact photoShape_required rest 0 hshape p (by simpa using hmem)
  · intro env body files s s' players up hp j hj
    have hloop := processPlayers_ok_loop hp
    obtain ⟨rest, hps, hshape⟩ :=
      processLoop_photoShape env (body.tier == "high_school") files body.players
        0 [] [] s players up s' hloop
    have hps' : players = rest := by simpa using hps
    subst hps'
    have hres := photoShape_get players 0 j hshape hj
    simpa using hres
  · intro env body files s pre rp rest htier hupload hplayers hvalid hname hdob hnone
    have hrq : (body.tier == "high_school") = true := by
      rw [htier]
      decide
    apply processPlayers_fst_of_loop_fail
    rw [hrq, hplayers]
    have hvalid0 : ∀ k (hk : k < pre.length),
        ValidWithFile files (0 + k) (pre.get ⟨k, hk⟩) := by
      intro k hk
      rw [show 0 + k = k from by omega]
      exact hvalid k hk
    have hres := processLoop_missing_photo env files hupload pre 0 [] [] s rp rest
      hvalid0 hname hdob (by rw [show 0 + pre.length = pre.length from by omega]; exact hnone)
    rw [show 0 + pre.length = pre.length from by omega] at hres
    exact hres

/-- Photo files for player indices 0 through 3 only. -/
def sampleFiles4 : List FileUpload :=
  [⟨playerPhotoField 0, "a.jpg"⟩, ⟨playerPhotoField 1, "b.jpg"⟩,
   ⟨playerPhotoField 2, "c.jpg"⟩, ⟨playerPhotoField 3, "d.jpg"⟩]

/-- The roster the high-school sample submission builds: every player with
their uploaded reference. -/
def sampleHsRecords : List PlayerRecord :=
  [⟨"Amir", ⟨2012, 3, 10⟩, some 0, some 0, some "a.jpg", 0⟩,
   ⟨"Bilal", ⟨2012, 3, 10⟩, some 1, some 1, some "b.jpg", 0⟩,
   ⟨"Chris", ⟨2012, 3, 10⟩, some 2, some 2, some "c.jpg", 0⟩,
   ⟨"Dawud", ⟨2012, 3, 10⟩, some 3, some 3, some "d.jpg", 0⟩,
   ⟨"Eli", ⟨2012, 3, 10⟩, some 4, some 4, some "e.jpg", 0⟩]

/-- Concrete instance of C4: the high-school sample submission's built
roster carries a photo reference on every player; a middle-tier build with
no files leaves the first player's reference absent; and the high-school
submission whose fifth player (index 4) has no file fails with exactly
`Player 5: ID photo is required` — the spec's end-to-end scenario. -/
theorem claim_C4_witness :
    (∀ p ∈ sampleHsRecords, p.idPhotoPublicId.isSome = true) ∧
    (sampleHsRecords.get ⟨0, by decide⟩).idPhotoPublicId.isSome =
      (sampleFiles.find? (fun f => f.fieldname == playerPhotoField 0)).isSome ∧
    (processPlayersDataWithCloudinary sampleEnv
        { sampleBody with tier := "high_school" } sampleFiles4 ⟨0, []⟩).1 =
      .err (errIdRequired 4) :=
  ⟨claim_C4_photo_requirement.1 sampleEnv { sampleBody with tier := "high_school" }
      sampleFiles ⟨0, []⟩ ⟨5, [4, 3, 2, 1, 0]⟩ sampleHsRecords [0, 1, 2, 3, 4]
      (by decide) (by decide),
   claim_C4_photo_requirement.2.1 sampleEnv { sampleBody with tier := "high_school" }
      sampleFiles ⟨0, []⟩ ⟨5, [4, 3, 2, 1, 0]⟩ sampleHsRecords [0, 1, 2, 3, 4]
      (by decide) 0 (by decide),
   claim_C4_photo_requirement.2.2 sampleEnv { sampleBody with tier := "high_school" }
      sampleFiles4 ⟨0, []⟩
      [samplePlayer "Amir", samplePlayer "Bilal", samplePlayer "Chris",
       samplePlayer "Dawud"] ⟨"Eli", some ⟨2012, 3, 10⟩⟩ []
      (by decide) (fun n => rfl) (by decide)
      (by
        intro k hk
        simp only [List.length_cons, List.length_nil] at hk
        interval_cases k <;> exact ⟨by decide, by decide, by decide⟩)
      (by decide) (by decide) (by decide)⟩
